import Mathlib

/-
  Verification of the notes application in src/App.jsx and src/main.jsx.

  The application is a thin orchestration layer over three remote
  collaborators: a structured-data store (Note records), a blob store
  (image files) and an auth provider.  We embed the three workflows of
  the NotesApp component — fetchNotes, createNote, deleteNote — as pure
  Lean functions.  Remote calls are modelled by an environment Env that
  fixes the result of each possible call; each workflow returns the new
  UI state together with an event trace recording, in program order,
  the busy-flag transitions, the remote calls issued, and the alert
  messages shown.  JavaScript truthiness on optional string fields is
  modelled explicitly: a missing field and the empty string are both
  falsy.
-/

namespace NotesApp

/-- Claim model: a Note record as held by the structured-data store.
The store never carries a signed URL. -/
structure StoreNote where
  id : String
  title : String
  content : String
  imagePath : Option String
deriving DecidableEq, Repr

/-- Claim model: an in-memory note as displayed by the UI, i.e. a store
record possibly extended with a derived signed URL, as produced by the
object spread in fetchNotes. -/
structure Note where
  id : String
  title : String
  content : String
  imagePath : Option String
  imageUrl : Option String
deriving DecidableEq, Repr

/-- Viewing a store record as an in-memory note with no signed URL
attached (the record object as the JS code stores it in the list). -/
def StoreNote.toNote (n : StoreNote) : Note :=
  ⟨n.id, n.title, n.content, n.imagePath, none⟩

/-- The object spread in fetchNotes: the record with imageUrl attached. -/
def StoreNote.withUrl (n : StoreNote) (u : String) : Note :=
  ⟨n.id, n.title, n.content, n.imagePath, some u⟩

/-- A selected file: its name and its declared content type
(file.name and file.type in the JS source). -/
structure FileSel where
  name : String
  contentType : String
deriving DecidableEq, Repr

/-- JavaScript truthiness of an optional string field: null or undefined
and the empty string are falsy, every other string is truthy. -/
def jsTruthy (o : Option String) : Bool :=
  match o with
  | none => false
  | some s => !s.isEmpty

/-- The remote calls the application can issue, with the payload each
call carries in the source. -/
inductive RemoteCall where
  | listNotes
  | getUrl (path : String)
  | createRec (title content : String)
  | uploadBlob (path contentType : String)
  | updateRec (id imagePath : String)
  | removeBlob (path : String)
  | deleteRec (id : String)
deriving DecidableEq, Repr

/-- Observable events of a workflow run, in program order. -/
inductive Event where
  | busySet (b : Bool)
  | call (c : RemoteCall)
  | alertShown (msg : String)
deriving DecidableEq, Repr

/-- The environment fixes the outcome of every remote call: ok with the
value the platform would return, or error for a thrown rejection. -/
structure Env where
  listResult : Except Unit (Option (List StoreNote))
  getUrlResult : String → Except Unit String
  createResult : String → String → Except Unit (Option StoreNote)
  uploadResult : String → String → Except Unit String
  updateResult : String → String → Except Unit (Option StoreNote)
  removeResult : String → Except Unit Unit
  deleteResult : String → Except Unit Unit

/-- The UI state held by the NotesApp component.  The note list is a
list of optional notes because the source can append created.data to it
even when that value is null. -/
structure AppState where
  notes : List (Option Note)
  formTitle : String
  formContent : String
  file : Option FileSel
  busy : Bool
deriving DecidableEq, Repr

def fetchErrMsg : String := "Error fetching notes. Check console for details."

def createErrMsg : String := "Error creating note. Check console for details."

def deleteErrMsg : String := "Error deleting note. Check console for details."

def validationMsg : String := "Please provide a title and content"

/-- One step of the hydration loop in fetchNotes: when the record has a
truthy imagePath, resolve a signed URL and attach it; otherwise pass
the record through unchanged. -/
def hydrateOne (env : Env) (n : StoreNote) : Except Unit Note :=
  match n.imagePath with
  | some p =>
      if p.isEmpty then Except.ok n.toNote
      else Except.map n.withUrl (env.getUrlResult p)
  | none => Except.ok n.toNote

/-- The Promise.all over the mapped records in fetchNotes: the whole
hydration either yields every note hydrated or rejects. -/
def hydrate (env : Env) : List StoreNote → Except Unit (List Note)
  | [] => Except.ok []
  | n :: rest =>
      match hydrateOne env n with
      | Except.error e => Except.error e
      | Except.ok x =>
          match hydrate env rest with
          | Except.error e => Except.error e
          | Except.ok xs => Except.ok (x :: xs)

/-- The getUrl calls issued by the hydration fan-out.  Promise.all
starts every mapped promise, so every record with a truthy imagePath
causes a getUrl call even when another resolution rejects. -/
def hydrateCalls (items : List StoreNote) : List Event :=
  items.filterMap fun n =>
    match n.imagePath with
    | some p => if p.isEmpty then none else some (Event.call (RemoteCall.getUrl p))
    | none => none

/-- fetchNotes from src/App.jsx: set busy, list the records, hydrate
them all, swap the list in; on any thrown error alert and leave the
list alone; always clear busy in the finally block. -/
def fetchNotes (env : Env) (s : AppState) : AppState × List Event :=
  match env.listResult with
  | Except.error _ =>
      ({ s with busy := false },
       [Event.busySet true, Event.call RemoteCall.listNotes,
        Event.alertShown fetchErrMsg, Event.busySet false])
  | Except.ok d =>
      match hydrate env (d.getD []) with
      | Except.error _ =>
          ({ s with busy := false },
           [Event.busySet true, Event.call RemoteCall.listNotes] ++
             hydrateCalls (d.getD []) ++
             [Event.alertShown fetchErrMsg, Event.busySet false])
      | Except.ok l =>
          ({ s with notes := l.map some, busy := false },
           [Event.busySet true, Event.call RemoteCall.listNotes] ++
             hydrateCalls (d.getD []) ++ [Event.busySet false])

/-- The state update shared by the success paths of createNote: append
the final entry, clear the form fields and the file selection, and let
the finally block clear busy. -/
def appendCleared (s : AppState) (entry : Option Note) : AppState :=
  { s with notes := s.notes ++ [entry], formTitle := "", formContent := "",
           file := none, busy := false }

/-- createNote from src/App.jsx: validate the form, create the record,
optionally upload the file to images/(id)-(name) and update the record
with the resulting path, append the final record, clear the form; on a
thrown error alert and leave the state alone; always clear busy. -/
def createNote (env : Env) (s : AppState) : AppState × List Event :=
  if s.formTitle.isEmpty || s.formContent.isEmpty then
    (s, [Event.alertShown validationMsg])
  else
    match env.createResult s.formTitle s.formContent with
    | Except.error _ =>
        ({ s with busy := false },
         [Event.busySet true,
          Event.call (RemoteCall.createRec s.formTitle s.formContent),
          Event.alertShown createErrMsg, Event.busySet false])
    | Except.ok created =>
        match s.file, created with
        | some f, some n =>
            match env.uploadResult ("images/" ++ n.id ++ "-" ++ f.name) f.contentType with
            | Except.error _ =>
                ({ s with busy := false },
                 [Event.busySet true,
                  Event.call (RemoteCall.createRec s.formTitle s.formContent),
                  Event.call (RemoteCall.uploadBlob
                    ("images/" ++ n.id ++ "-" ++ f.name) f.contentType),
                  Event.alertShown createErrMsg, Event.busySet false])
            | Except.ok resPath =>
                match env.updateResult n.id resPath with
                | Except.error _ =>
                    ({ s with busy := false },
                     [Event.busySet true,
                      Event.call (RemoteCall.createRec s.formTitle s.formContent),
                      Event.call (RemoteCall.uploadBlob
                        ("images/" ++ n.id ++ "-" ++ f.name) f.contentType),
                      Event.call (RemoteCall.updateRec n.id resPath),
                      Event.alertShown createErrMsg, Event.busySet false])
                | Except.ok updated =>
                    (appendCleared s (Option.map StoreNote.toNote updated),
                     [Event.busySet true,
                      Event.call (RemoteCall.createRec s.formTitle s.formContent),
                      Event.call (RemoteCall.uploadBlob
                        ("images/" ++ n.id ++ "-" ++ f.name) f.contentType),
                      Event.call (RemoteCall.updateRec n.id resPath),
                      Event.busySet false])
        | _, _ =>
            (appendCleared s (Option.map StoreNote.toNote created),
             [Event.busySet true,
              Event.call (RemoteCall.createRec s.formTitle s.formContent),
              Event.busySet false])

/-- The list filter in deleteNote.  Reading the id field of a null
entry throws in JavaScript, so the whole filter rejects when the list
holds a null entry; otherwise it keeps every note with a different id. -/
def removeById : List (Option Note) → String → Except Unit (List (Option Note))
  | [], _ => Except.ok []
  | none :: _, _ => Except.error ()
  | some n :: rest, nid =>
      Except.map (fun r => if n.id = nid then r else some n :: r)
        (removeById rest nid)

/-- The record-delete step of deleteNote, entered after the blob step
(whose events are blobEvs) has succeeded or was skipped. -/
def deleteRecStep (env : Env) (note : Note) (s : AppState)
    (blobEvs : List Event) : AppState × List Event :=
  match env.deleteResult note.id with
  | Except.error _ =>
      ({ s with busy := false },
       [Event.busySet true] ++ blobEvs ++
         [Event.call (RemoteCall.deleteRec note.id),
          Event.alertShown deleteErrMsg, Event.busySet false])
  | Except.ok _ =>
      match removeById s.notes note.id with
      | Except.error _ =>
          ({ s with busy := false },
           [Event.busySet true] ++ blobEvs ++
             [Event.call (RemoteCall.deleteRec note.id),
              Event.alertShown deleteErrMsg, Event.busySet false])
      | Except.ok l =>
          ({ s with notes := l, busy := false },
           [Event.busySet true] ++ blobEvs ++
             [Event.call (RemoteCall.deleteRec note.id), Event.busySet false])

/-- deleteNote from src/App.jsx: require confirmation, delete the blob
first when the note has a truthy imagePath, then delete the record and
drop the note from the list; on a thrown error alert and leave the list
alone; always clear busy once past the confirmation guard. -/
def deleteNote (env : Env) (confirmed : Bool) (note : Note)
    (s : AppState) : AppState × List Event :=
  if !confirmed then (s, [])
  else
    match note.imagePath with
    | some p =>
        if p.isEmpty then deleteRecStep env note s []
        else
          match env.removeResult p with
          | Except.error _ =>
              ({ s with busy := false },
               [Event.busySet true, Event.call (RemoteCall.removeBlob p),
                Event.alertShown deleteErrMsg, Event.busySet false])
          | Except.ok _ =>
              deleteRecStep env note s [Event.call (RemoteCall.removeBlob p)]
    | none => deleteRecStep env note s []

/-- The overall outcome of a fetch attempt: the hydrated list, or an
error when the list call or any signed-URL resolution throws. -/
def fetchOutcome (env : Env) : Except Unit (List Note) :=
  match env.listResult with
  | Except.error e => Except.error e
  | Except.ok d => hydrate env (d.getD [])

/-- Whether an Except value is an error. -/
def exceptFailed : Except Unit (List Note) → Bool
  | Except.error _ => true
  | Except.ok _ => false

/-- The remote calls appearing in a trace, in order. -/
def callEvents (tr : List Event) : List RemoteCall :=
  tr.filterMap fun e =>
    match e with
    | Event.call c => some c
    | _ => none

/-- Whether an event is a remote call. -/
def Event.isCall : Event → Bool
  | Event.call _ => true
  | _ => false

/-- Whether an event is an alert. -/
def Event.isAlert : Event → Bool
  | Event.alertShown _ => true
  | _ => false

/-- A trace with no alert: the run surfaced no error. -/
def noAlert (tr : List Event) : Bool :=
  tr.all fun e => !e.isAlert

/-- Every remote call in the trace happens while the busy flag holds,
scanning the trace with the current busy value. -/
def busyDisciplined : Bool → List Event → Bool
  | _, [] => true
  | _, Event.busySet x :: tr => busyDisciplined x tr
  | b, Event.call _ :: tr => b && busyDisciplined b tr
  | b, Event.alertShown _ :: tr => busyDisciplined b tr

/-! ### Helper lemmas -/

theorem callEvents_append (l m : List Event) :
    callEvents (l ++ m) = callEvents l ++ callEvents m := by
  simp [callEvents, List.filterMap_append]

theorem hydrateOne_spec (env : Env) (a : StoreNote) (b : Note)
    (h : hydrateOne env a = Except.ok b) :
    (jsTruthy a.imagePath = true →
      ∃ p u, a.imagePath = some p ∧ env.getUrlResult p = Except.ok u ∧
        b = a.withUrl u) ∧
    (jsTruthy a.imagePath = false → b = a.toNote) := by
  unfold hydrateOne at h
  split at h
  next p hp =>
    split at h
    next he =>
      injection h with h
      subst h
      simp [jsTruthy, hp, he]
    next he =>
      have he' : p.isEmpty = false := by simpa using he
      cases hg : env.getUrlResult p with
      | error e => rw [hg] at h; exact Except.noConfusion h
      | ok u =>
          rw [hg] at h
          simp only [Except.map] at h
          injection h with h
          subst h
          constructor
          · intro _
            exact ⟨p, u, hp, hg, rfl⟩
          · intro hf
            rw [hp] at hf
            simp [jsTruthy, he'] at hf
  next hp =>
    injection h with h
    subst h
    simp [jsTruthy, hp]

theorem hydrate_ok_forall (env : Env) :
    ∀ (items : List StoreNote) (l : List Note),
      hydrate env items = Except.ok l →
      List.Forall₂ (fun a b => hydrateOne env a = Except.ok b) items l
  | [], l, h => by
      unfold hydrate at h
      injection h with h
      subst h
      exact List.Forall₂.nil
  | n :: rest, l, h => by
      unfold hydrate at h
      cases h1 : hydrateOne env n with
      | error e => rw [h1] at h; exact Except.noConfusion h
      | ok x =>
          rw [h1] at h
          cases h2 : hydrate env rest with
          | error e => rw [h2] at h; exact Except.noConfusion h
          | ok xs =>
              rw [h2] at h
              injection h with h
              subst h
              exact List.Forall₂.cons h1 (hydrate_ok_forall env rest xs h2)

theorem forall₂_mem_right {R : StoreNote → Note → Prop} :
    ∀ {as : List StoreNote} {bs : List Note}, List.Forall₂ R as bs →
      ∀ b ∈ bs, ∃ a, a ∈ as ∧ R a b := by
  intro as bs h
  induction h with
  | nil => intro b hb; exact absurd hb (List.not_mem_nil b)
  | @cons a b as bs hr _ ih =>
      intro x hx
      rcases List.mem_cons.mp hx with hx | hx
      · subst hx; exact ⟨a, List.mem_cons_self a as, hr⟩
      · rcases ih x hx with ⟨a', ha', hra'⟩
        exact ⟨a', List.mem_cons_of_mem a ha', hra'⟩

theorem removeById_mem :
    ∀ (ns : List (Option Note)) (nid : String) (l : List (Option Note)),
      removeById ns nid = Except.ok l → ∀ e ∈ l, e ∈ ns
  | [], _, l, h => by
      unfold removeById at h
      injection h with h
      subst h
      intro e he
      exact absurd he (List.not_mem_nil e)
  | none :: _, _, l, h => by
      unfold removeById at h
      exact Except.noConfusion h
  | some n :: rest, nid, l, h => by
      unfold removeById at h
      cases hr : removeById rest nid with
      | error e => rw [hr] at h; exact Except.noConfusion h
      | ok r =>
          rw [hr] at h
          simp only [Except.map] at h
          injection h with h
          subst h
          intro e he
          by_cases hid : n.id = nid
          · rw [if_pos hid] at he
            exact List.mem_cons_of_mem _ (removeById_mem rest nid r hr e he)
          · rw [if_neg hid] at he
            rcases List.mem_cons.mp he with he | he
            · subst he; exact List.mem_cons_self _ _
            · exact List.mem_cons_of_mem _ (removeById_mem rest nid r hr e he)

theorem busyDisciplined_hydrateCalls :
    ∀ (items : List StoreNote) (tr : List Event),
      busyDisciplined true (hydrateCalls items ++ tr) = busyDisciplined true tr
  | [], tr => by simp [hydrateCalls]
  | n :: rest, tr => by
      unfold hydrateCalls
      rw [List.filterMap_cons]
      cases hp : n.imagePath with
      | none =>
          simpa [hydrateCalls] using busyDisciplined_hydrateCalls rest tr
      | some p =>
          cases he : p.isEmpty with
          | true =>
              simpa [he, hydrateCalls] using busyDisciplined_hydrateCalls rest tr
          | false =>
              simpa [he, busyDisciplined, hydrateCalls] using
                busyDisciplined_hydrateCalls rest tr

theorem hydrateCalls_shape (items : List StoreNote) (e : Event)
    (he : e ∈ hydrateCalls items) :
    ∃ p, e = Event.call (RemoteCall.getUrl p) := by
  unfold hydrateCalls at he
  rcases List.mem_filterMap.mp he with ⟨n, _, hn⟩
  split at hn
  next p hp =>
    split at hn
    next => exact Option.noConfusion hn
    next =>
      injection hn with hn
      exact ⟨p, hn.symm⟩
  next hp => exact Option.noConfusion hn

theorem deleteRecStep_calls (env : Env) (note : Note) (s : AppState)
    (blobEvs : List Event) :
    callEvents (deleteRecStep env note s blobEvs).2 =
      callEvents blobEvs ++ [RemoteCall.deleteRec note.id] := by
  unfold deleteRecStep
  cases env.deleteResult note.id with
  | error e => simp [callEvents, List.filterMap_append]
  | ok u =>
      cases removeById s.notes note.id with
      | error e => simp [callEvents, List.filterMap_append]
      | ok l => simp [callEvents, List.filterMap_append]

theorem deleteRecStep_busy (env : Env) (note : Note) (s : AppState)
    (blobEvs : List Event) :
    (deleteRecStep env note s blobEvs).1.busy = false := by
  unfold deleteRecStep
  cases env.deleteResult note.id with
  | error e => rfl
  | ok u =>
      cases removeById s.notes note.id with
      | error e => rfl
      | ok l => rfl

theorem deleteRecStep_discipline (env : Env) (note : Note) (s : AppState)
    (blobEvs : List Event)
    (h : ∀ tr, busyDisciplined true (blobEvs ++ tr) = busyDisciplined true tr) :
    busyDisciplined false (deleteRecStep env note s blobEvs).2 = true := by
  unfold deleteRecStep
  cases env.deleteResult note.id with
  | error e => simp [busyDisciplined, h]
  | ok u =>
      cases removeById s.notes note.id with
      | error e => simp [busyDisciplined, h]
      | ok l => simp [busyDisciplined, h]

/-! ### Concrete fixtures used by the witnesses -/

def noteRecA : StoreNote := ⟨"1", "t", "c", some "images/1-a.png"⟩

def noteRecB : StoreNote := ⟨"2", "u", "d", none⟩

def nImg : Note := ⟨"1", "t", "c", some "images/1-a.png", none⟩

def nPlain : Note := ⟨"2", "u", "d", none, none⟩

def envOk : Env where
  listResult := Except.ok (some [noteRecA, noteRecB])
  getUrlResult := fun p => Except.ok ("https://signed.example/" ++ p)
  createResult := fun t c => Except.ok (some ⟨"123", t, c, none⟩)
  uploadResult := fun p _ => Except.ok p
  updateResult := fun i p => Except.ok (some ⟨i, "A", "B", some p⟩)
  removeResult := fun _ => Except.ok ()
  deleteResult := fun _ => Except.ok ()

def envListFail : Env := { envOk with listResult := Except.error () }

def envRemoveFail : Env := { envOk with removeResult := fun _ => Except.error () }

def envCreateNull : Env := { envOk with createResult := fun _ _ => Except.ok none }

def stateAB : AppState := ⟨[], "A", "B", none, false⟩

def stateABFile : AppState := ⟨[], "A", "B", some ⟨"photo.png", "image/png"⟩, false⟩

def stateEmptyTitle : AppState := ⟨[], "", "B", none, false⟩

def stateNotes : AppState := ⟨[some nImg, some nPlain], "", "", none, false⟩

/-! ### Claim theorems -/

/-- Claim C1: for every prior note list and every failure during fetch (the
list call or any signed-URL resolution throwing), fetchNotes leaves the
displayed note list exactly as it was before the call, surfaces a
user-visible error, and busy is false afterward. -/
theorem C1_fetch_failure_atomic (env : Env) (s : AppState)
    (h : exceptFailed (fetchOutcome env) = true) :
    (fetchNotes env s).1.notes = s.notes ∧
    Event.alertShown fetchErrMsg ∈ (fetchNotes env s).2 ∧
    (fetchNotes env s).1.busy = false := by
  unfold fetchOutcome at h
  unfold fetchNotes
  cases hl : env.listResult with
  | error e => simp
  | ok d =>
      rw [hl] at h
      cases hh : hydrate env (d.getD []) with
      | error e => simp [hh]
      | ok l => simp [exceptFailed, hh] at h

/-- Witness for C1: a transport error on the list call, with a prior
nonempty list, leaves that list in place with busy false. -/
theorem C1_witness :
    exceptFailed (fetchOutcome envListFail) = true ∧
    ((fetchNotes envListFail stateNotes).1.notes = stateNotes.notes ∧
     Event.alertShown fetchErrMsg ∈ (fetchNotes envListFail stateNotes).2 ∧
     (fetchNotes envListFail stateNotes).1.busy = false) :=
  ⟨by decide, C1_fetch_failure_atomic envListFail stateNotes (by decide)⟩

/-- Claim C2: whenever title or content is empty, createNote performs zero
remote calls, surfaces the validation error, and returns with the whole UI
state (note list, form fields, file selection) unchanged. -/
theorem C2_create_validation (env : Env) (s : AppState)
    (h : (s.formTitle.isEmpty || s.formContent.isEmpty) = true) :
    (∀ e ∈ (createNote env s).2, Event.isCall e = false) ∧
    Event.alertShown validationMsg ∈ (createNote env s).2 ∧
    (createNote env s).1 = s := by
  unfold createNote
  rw [if_pos h]
  refine ⟨?_, by simp, rfl⟩
  intro e he
  simp at he
  subst he
  rfl

/-- Witness for C2 at an empty title with a concrete environment. -/
theorem C2_witness :
    (stateEmptyTitle.formTitle.isEmpty || stateEmptyTitle.formContent.isEmpty)
      = true ∧
    ((∀ e ∈ (createNote envOk stateEmptyTitle).2, Event.isCall e = false) ∧
     Event.alertShown validationMsg ∈ (createNote envOk stateEmptyTitle).2 ∧
     (createNote envOk stateEmptyTitle).1 = stateEmptyTitle) :=
  ⟨by decide, C2_create_validation envOk stateEmptyTitle (by decide)⟩

/-- Claim C3: a confirmed delete of a note without imagePath issues only the
record-delete call; with a truthy imagePath it issues blob-delete strictly
before record-delete; and when blob-delete fails, record-delete is never
issued and the list entry survives. -/
theorem C3_delete_order (env : Env) (note : Note) (s : AppState) :
    (note.imagePath = none →
      callEvents (deleteNote env true note s).2 =
        [RemoteCall.deleteRec note.id]) ∧
    (∀ p, note.imagePath = some p → p.isEmpty = false →
      (env.removeResult p = Except.ok () →
        callEvents (deleteNote env true note s).2 =
          [RemoteCall.removeBlob p, RemoteCall.deleteRec note.id]) ∧
      (env.removeResult p = Except.error () →
        callEvents (deleteNote env true note s).2 = [RemoteCall.removeBlob p] ∧
        (deleteNote env true note s).1.notes = s.notes)) := by
  constructor
  · intro hp
    unfold deleteNote
    rw [hp]
    simp only [Bool.not_true, Bool.false_eq_true, if_false]
    simpa [callEvents] using deleteRecStep_calls env note s []
  · intro p hp hpe
    constructor
    · intro hok
      unfold deleteNote
      rw [hp]
      simp only [hpe, Bool.not_true, Bool.false_eq_true, if_false]
      rw [hok]
      simpa [callEvents] using
        deleteRecStep_calls env note s [Event.call (RemoteCall.removeBlob p)]
    · intro herr
      unfold deleteNote
      rw [hp]
      simp only [hpe, Bool.not_true, Bool.false_eq_true, if_false]
      rw [herr]
      simp [callEvents]

/-- Witness for C3: the three delete shapes at concrete notes and
environments. -/
theorem C3_witness :
    callEvents (deleteNote envOk true nPlain stateNotes).2 =
      [RemoteCall.deleteRec nPlain.id] ∧
    callEvents (deleteNote envOk true nImg stateNotes).2 =
      [RemoteCall.removeBlob "images/1-a.png", RemoteCall.deleteRec nImg.id] ∧
    (callEvents (deleteNote envRemoveFail true nImg stateNotes).2 =
      [RemoteCall.removeBlob "images/1-a.png"] ∧
     (deleteNote envRemoveFail true nImg stateNotes).1.notes =
       stateNotes.notes) :=
  ⟨(C3_delete_order envOk nPlain stateNotes).1 rfl,
   ((C3_delete_order envOk nImg stateNotes).2 "images/1-a.png" rfl
     (by decide)).1 rfl,
   ((C3_delete_order envRemoveFail nImg stateNotes).2 "images/1-a.png" rfl
     (by decide)).2 rfl⟩

/-- Claim C5: in every run of each workflow, remote calls only happen while
the busy flag is set, and busy is false again when the workflow ends,
whatever the outcome. -/
theorem C5_busy_protocol (env : Env) (s : AppState) (confirmed : Bool)
    (note : Note) (hb : s.busy = false) :
    (busyDisciplined false (fetchNotes env s).2 = true ∧
      (fetchNotes env s).1.busy = false) ∧
    (busyDisciplined false (createNote env s).2 = true ∧
      (createNote env s).1.busy = false) ∧
    (busyDisciplined false (deleteNote env confirmed note s).2 = true ∧
      (deleteNote env confirmed note s).1.busy = false) := by
  refine ⟨?_, ?_, ?_⟩
  · unfold fetchNotes
    split
    · simp [busyDisciplined]
    · split
      · simp [busyDisciplined, busyDisciplined_hydrateCalls]
      · simp [busyDisciplined, busyDisciplined_hydrateCalls]
  · unfold createNote
    split
    · simp [busyDisciplined, hb]
    · split
      · simp [busyDisciplined]
      · split
        · split
          · simp [busyDisciplined]
          · split
            · simp [busyDisciplined]
            · simp [appendCleared, busyDisciplined]
        · simp [appendCleared, busyDisciplined]
  · unfold deleteNote
    split
    · simp [busyDisciplined, hb]
    · split
      next p heq =>
        split
        · exact ⟨deleteRecStep_discipline env note s [] (fun tr => rfl),
            deleteRecStep_busy env note s []⟩
        · split
          · simp [busyDisciplined]
          · refine ⟨deleteRecStep_discipline env note s
              [Event.call (RemoteCall.removeBlob p)] ?_,
              deleteRecStep_busy env note s
                [Event.call (RemoteCall.removeBlob p)]⟩
            intro tr
            simp [busyDisciplined]
      next =>
        exact ⟨deleteRecStep_discipline env note s [] (fun tr => rfl),
          deleteRecStep_busy env note s []⟩

/-- Witness for C5 at a concrete environment, state, and note. -/
theorem C5_witness :
    stateAB.busy = false ∧
    ((busyDisciplined false (fetchNotes envOk stateAB).2 = true ∧
      (fetchNotes envOk stateAB).1.busy = false) ∧
     (busyDisciplined false (createNote envOk stateAB).2 = true ∧
      (createNote envOk stateAB).1.busy = false) ∧
     (busyDisciplined false (deleteNote envOk true nImg stateAB).2 = true ∧
      (deleteNote envOk true nImg stateAB).1.busy = false)) :=
  ⟨rfl, C5_busy_protocol envOk stateAB true nImg rfl⟩

/-- The hydrated note for the first fixture record under envOk. -/
def hydratedA : Note :=
  ⟨"1", "t", "c", some "images/1-a.png",
   some "https://signed.example/images/1-a.png"⟩

/-- Claim C6: a successful fetchNotes replaces the in-memory list with a
list of the same length in store order, in which every record with a truthy
imagePath carries the signed URL resolved through the blob gateway and every
other record is passed through unchanged. -/
theorem C6_fetch_hydrates (env : Env) (s : AppState)
    (d : Option (List StoreNote)) (l : List Note)
    (hd : env.listResult = Except.ok d)
    (hh : hydrate env (d.getD []) = Except.ok l) :
    (fetchNotes env s).1.notes = l.map some ∧
    l.length = (d.getD []).length ∧
    List.Forall₂ (fun a b =>
      (jsTruthy a.imagePath = true →
        ∃ p u, a.imagePath = some p ∧ env.getUrlResult p = Except.ok u ∧
          b = a.withUrl u) ∧
      (jsTruthy a.imagePath = false → b = a.toNote)) (d.getD []) l := by
  have hf := hydrate_ok_forall env (d.getD []) l hh
  refine ⟨?_, hf.length_eq.symm, hf.imp ?_⟩
  · unfold fetchNotes
    simp only [hd, hh]
  · intro a b hab
    exact hydrateOne_spec env a b hab

/-- Witness for C6 at the concrete environment envOk: both fixture records
are swapped in, the one with a path hydrated, the other untouched. -/
theorem C6_witness :
    envOk.listResult = Except.ok (some [noteRecA, noteRecB]) ∧
    hydrate envOk [noteRecA, noteRecB] =
      Except.ok [hydratedA, StoreNote.toNote noteRecB] ∧
    (fetchNotes envOk stateAB).1.notes =
      List.map some [hydratedA, StoreNote.toNote noteRecB] :=
  ⟨rfl, rfl,
   (C6_fetch_hydrates envOk stateAB (some [noteRecA, noteRecB])
     [hydratedA, StoreNote.toNote noteRecB] rfl rfl).1⟩

/-- Claim C7: every createNote run that surfaces no error appends the final
record (the updated record when a file was attached, the created record
otherwise) to the end of the in-memory list, leaves the previous entries
unchanged, and clears the draft title, content, and file selection. -/
theorem C7_create_appends (env : Env) (s : AppState)
    (h : noAlert (createNote env s).2 = true) :
    ∃ entry,
      (createNote env s).1.notes = s.notes ++ [entry] ∧
      (createNote env s).1.formTitle = "" ∧
      (createNote env s).1.formContent = "" ∧
      (createNote env s).1.file = none ∧
      (∀ created,
        env.createResult s.formTitle s.formContent = Except.ok created →
        (s.file = none → entry = Option.map StoreNote.toNote created) ∧
        (∀ f n r u, s.file = some f → created = some n →
          env.uploadResult ("images/" ++ n.id ++ "-" ++ f.name) f.contentType
            = Except.ok r →
          env.updateResult n.id r = Except.ok u →
          entry = Option.map StoreNote.toNote u)) := by
  unfold createNote at h ⊢
  by_cases hv : (s.formTitle.isEmpty || s.formContent.isEmpty) = true
  · rw [if_pos hv] at h
    simp [noAlert, Event.isAlert] at h
  · rw [if_neg hv] at h ⊢
    cases hcr : env.createResult s.formTitle s.formContent with
    | error e =>
        simp only [hcr] at h
        simp [noAlert, Event.isAlert] at h
    | ok created =>
        simp only [hcr] at h ⊢
        rcases hfe : s.file with _ | f
        · simp only [hfe] at h ⊢
          refine ⟨Option.map StoreNote.toNote created,
            by simp [appendCleared], rfl, rfl, rfl, ?_⟩
          intro created' hcc
          injection hcc with hcc
          subst hcc
          refine ⟨fun _ => rfl, ?_⟩
          intro f n r u hf' _ _ _
          exact Option.noConfusion hf'
        · cases created with
          | none =>
              simp only [hfe] at h ⊢
              refine ⟨none, by simp [appendCleared], rfl, rfl, rfl, ?_⟩
              intro created' hcc
              injection hcc with hcc
              subst hcc
              refine ⟨fun _ => rfl, ?_⟩
              intro f' n' r u _ hn' _ _
              exact Option.noConfusion hn'
          | some n =>
              simp only [hfe] at h ⊢
              cases hup : env.uploadResult ("images/" ++ n.id ++ "-" ++ f.name)
                  f.contentType with
              | error e =>
                  simp only [hup] at h
                  simp [noAlert, Event.isAlert] at h
              | ok r =>
                  simp only [hup] at h ⊢
                  cases hupd : env.updateResult n.id r with
                  | error e =>
                      simp only [hupd] at h
                      simp [noAlert, Event.isAlert] at h
                  | ok u =>
                      simp only [hupd] at h ⊢
                      refine ⟨Option.map StoreNote.toNote u,
                        by simp [appendCleared], rfl, rfl, rfl, ?_⟩
                      intro created' hcc
                      injection hcc with hcc
                      subst hcc
                      constructor
                      · intro hfn
                        exact Option.noConfusion hfn
                      · intro f' n' r' u' hf' hn' hup' hupd'
                        injection hf' with hf'
                        subst hf'
                        injection hn' with hn'
                        subst hn'
                        rw [hup] at hup'
                        injection hup' with hup'
                        subst hup'
                        rw [hupd] at hupd'
                        injection hupd' with hupd'
                        subst hupd'
                        rfl

/-- Witness for C7: creating title A, content B with no file from an empty
list yields exactly one entry with that title and content and no image. -/
theorem C7_witness :
    noAlert (createNote envOk stateAB).2 = true ∧
    (∃ entry,
      (createNote envOk stateAB).1.notes = stateAB.notes ++ [entry] ∧
      (createNote envOk stateAB).1.formTitle = "" ∧
      (createNote envOk stateAB).1.formContent = "" ∧
      (createNote envOk stateAB).1.file = none ∧
      (∀ created,
        envOk.createResult stateAB.formTitle stateAB.formContent
          = Except.ok created →
        (stateAB.file = none → entry = Option.map StoreNote.toNote created) ∧
        (∀ f n r u, stateAB.file = some f → created = some n →
          envOk.uploadResult ("images/" ++ n.id ++ "-" ++ f.name) f.contentType
            = Except.ok r →
          envOk.updateResult n.id r = Except.ok u →
          entry = Option.map StoreNote.toNote u))) ∧
    (createNote envOk stateAB).1.notes =
      [some ⟨"123", "A", "B", none, none⟩] :=
  ⟨by decide, C7_create_appends envOk stateAB (by decide), by decide⟩

/-- Claim C4: when a file is selected and the record create succeeds, the
blob is uploaded to exactly images/(id)-(filename) with the file's declared
content type, and on success the record is then updated to carry the path
returned by the upload, with the three remote calls in that order. -/
theorem C4_upload_path (env : Env) (s : AppState) (f : FileSel) (n : StoreNote)
    (ht : s.formTitle.isEmpty = false) (hc : s.formContent.isEmpty = false)
    (hf : s.file = some f)
    (hcr : env.createResult s.formTitle s.formContent = Except.ok (some n)) :
    Event.call (RemoteCall.uploadBlob ("images/" ++ n.id ++ "-" ++ f.name)
      f.contentType) ∈ (createNote env s).2 ∧
    (∀ r u,
      env.uploadResult ("images/" ++ n.id ++ "-" ++ f.name) f.contentType
        = Except.ok r →
      env.updateResult n.id r = Except.ok u →
      callEvents (createNote env s).2 =
        [RemoteCall.createRec s.formTitle s.formContent,
         RemoteCall.uploadBlob ("images/" ++ n.id ++ "-" ++ f.name)
           f.contentType,
         RemoteCall.updateRec n.id r]) := by
  unfold createNote
  rw [if_neg (by simp [ht, hc])]
  simp only [hcr, hf]
  split
  next e hup =>
    refine ⟨by simp, ?_⟩
    intro r u hup' _
    rw [hup] at hup'
    exact Except.noConfusion hup'
  next r hup =>
    split
    next e hupd =>
      refine ⟨by simp, ?_⟩
      intro r' u' hup' hupd'
      rw [hup] at hup'
      injection hup' with hup'
      subst hup'
      rw [hupd] at hupd'
      exact Except.noConfusion hupd'
    next u hupd =>
      refine ⟨by simp, ?_⟩
      intro r' u' hup' hupd'
      rw [hup] at hup'
      injection hup' with hup'
      subst hup'
      simp [callEvents]

/-- Witness for C4: with assigned id 123 and file photo.png the blob path is
exactly images/123-photo.png and the update call carries it. -/
theorem C4_witness :
    ("images/" ++ "123" ++ "-" ++ "photo.png") = "images/123-photo.png" ∧
    Event.call (RemoteCall.uploadBlob "images/123-photo.png" "image/png") ∈
      (createNote envOk stateABFile).2 ∧
    callEvents (createNote envOk stateABFile).2 =
      [RemoteCall.createRec "A" "B",
       RemoteCall.uploadBlob "images/123-photo.png" "image/png",
       RemoteCall.updateRec "123" "images/123-photo.png"] :=
  ⟨by decide,
   (C4_upload_path envOk stateABFile ⟨"photo.png", "image/png"⟩
     ⟨"123", "A", "B", none⟩ rfl rfl rfl rfl).1,
   (C4_upload_path envOk stateABFile ⟨"photo.png", "image/png"⟩
     ⟨"123", "A", "B", none⟩ rfl rfl rfl rfl).2
     ("images/" ++ "123" ++ "-" ++ "photo.png")
     (some ⟨"123", "A", "B", some ("images/" ++ "123" ++ "-" ++ "photo.png")⟩)
     rfl rfl⟩

/-- Claim C9: when the record-create call resolves without throwing but
returns a null record, createNote skips upload and update even with a file
selected, appends the null value to the list, clears the form and the file,
and surfaces no error. -/
theorem C9_create_null (env : Env) (s : AppState) (f : FileSel)
    (ht : s.formTitle.isEmpty = false) (hc : s.formContent.isEmpty = false)
    (hf : s.file = some f)
    (hcr : env.createResult s.formTitle s.formContent = Except.ok none) :
    (createNote env s).1.notes = s.notes ++ [none] ∧
    (createNote env s).1.formTitle = "" ∧
    (createNote env s).1.formContent = "" ∧
    (createNote env s).1.file = none ∧
    callEvents (createNote env s).2 =
      [RemoteCall.createRec s.formTitle s.formContent] ∧
    noAlert (createNote env s).2 = true := by
  unfold createNote
  rw [if_neg (by simp [ht, hc])]
  simp only [hcr, hf]
  exact ⟨by simp [appendCleared], rfl, rfl, rfl, by simp [callEvents],
    by simp [noAlert, Event.isAlert]⟩

/-- Witness for C9: a null create result with a selected file appends a
non-Note entry to the list. -/
theorem C9_witness :
    stateABFile.formTitle.isEmpty = false ∧
    stateABFile.formContent.isEmpty = false ∧
    stateABFile.file = some ⟨"photo.png", "image/png"⟩ ∧
    envCreateNull.createResult stateABFile.formTitle stateABFile.formContent
      = Except.ok none ∧
    ((createNote envCreateNull stateABFile).1.notes =
        stateABFile.notes ++ [none] ∧
      (createNote envCreateNull stateABFile).1.formTitle = "" ∧
      (createNote envCreateNull stateABFile).1.formContent = "" ∧
      (createNote envCreateNull stateABFile).1.file = none ∧
      callEvents (createNote envCreateNull stateABFile).2 =
        [RemoteCall.createRec stateABFile.formTitle stateABFile.formContent] ∧
      noAlert (createNote envCreateNull stateABFile).2 = true) :=
  ⟨rfl, rfl, rfl, rfl,
   C9_create_null envCreateNull stateABFile ⟨"photo.png", "image/png"⟩
     rfl rfl rfl rfl⟩

/-- Claim C10: a successful createNote with a file appends a note that has
imagePath set but no imageUrl, because createNote never resolves a signed
URL; the URL for that note first appears through the next fetch's hydration
step. -/
theorem C10_create_no_url (env : Env) (s : AppState) (f : FileSel)
    (n m : StoreNote) (r : String)
    (ht : s.formTitle.isEmpty = false) (hc : s.formContent.isEmpty = false)
    (hf : s.file = some f)
    (hcr : env.createResult s.formTitle s.formContent = Except.ok (some n))
    (hup : env.uploadResult ("images/" ++ n.id ++ "-" ++ f.name) f.contentType
      = Except.ok r)
    (hupd : env.updateResult n.id r = Except.ok (some m))
    (hecho : m.imagePath = some r) :
    (createNote env s).1.notes = s.notes ++ [some m.toNote] ∧
    m.toNote.imagePath = some r ∧
    m.toNote.imageUrl = none ∧
    (∀ p, Event.call (RemoteCall.getUrl p) ∉ (createNote env s).2) ∧
    (r.isEmpty = false → ∀ u, env.getUrlResult r = Except.ok u →
      hydrateOne env m = Except.ok (m.withUrl u) ∧
      (m.withUrl u).imageUrl = some u) := by
  unfold createNote
  rw [if_neg (by simp [ht, hc])]
  simp only [hcr, hf, hup, hupd]
  refine ⟨by simp [appendCleared], by simp [StoreNote.toNote, hecho], rfl,
    ?_, ?_⟩
  · intro p hmem
    simp at hmem
  · intro hre u hu
    refine ⟨?_, rfl⟩
    unfold hydrateOne
    simp only [hecho, hre, Bool.false_eq_true, if_false, hu, Except.map]

/-- Witness for C10: the concrete created note carries the blob path and no
URL, and the next hydration attaches one. -/
theorem C10_witness :
    (createNote envOk stateABFile).1.notes = stateABFile.notes ++
      [some (StoreNote.toNote
        ⟨"123", "A", "B", some "images/123-photo.png"⟩)] ∧
    (StoreNote.toNote
      ⟨"123", "A", "B", some "images/123-photo.png"⟩).imagePath =
        some "images/123-photo.png" ∧
    (StoreNote.toNote
      ⟨"123", "A", "B", some "images/123-photo.png"⟩).imageUrl = none ∧
    (∀ p, Event.call (RemoteCall.getUrl p) ∉
      (createNote envOk stateABFile).2) ∧
    ("images/123-photo.png".isEmpty = false →
      ∀ u, envOk.getUrlResult "images/123-photo.png" = Except.ok u →
      hydrateOne envOk ⟨"123", "A", "B", some "images/123-photo.png"⟩ =
        Except.ok ((⟨"123", "A", "B", some "images/123-photo.png"⟩ :
          StoreNote).withUrl u) ∧
      ((⟨"123", "A", "B", some "images/123-photo.png"⟩ :
        StoreNote).withUrl u).imageUrl = some u) :=
  C10_create_no_url envOk stateABFile ⟨"photo.png", "image/png"⟩
    ⟨"123", "A", "B", none⟩ ⟨"123", "A", "B", some "images/123-photo.png"⟩
    "images/123-photo.png" rfl rfl rfl rfl rfl rfl rfl

/-- Soundness of a displayed note's signed URL: whenever imageUrl is
present it came from a successful resolution of the note's own truthy
imagePath. -/
def noteUrlSound (env : Env) (n : Note) : Prop :=
  ∀ u, n.imageUrl = some u →
    ∃ p, n.imagePath = some p ∧ p.isEmpty = false ∧
      env.getUrlResult p = Except.ok u

/-- Every note entry held in the list satisfies noteUrlSound. -/
def stateUrlSound (env : Env) (s : AppState) : Prop :=
  ∀ n : Note, some n ∈ s.notes → noteUrlSound env n

theorem toNote_sound (env : Env) (m : StoreNote) :
    noteUrlSound env m.toNote := by
  intro u hu
  exact Option.noConfusion hu

theorem hydrateOne_sound (env : Env) (a : StoreNote) (b : Note)
    (h : hydrateOne env a = Except.ok b) : noteUrlSound env b := by
  rcases hydrateOne_spec env a b h with ⟨h1, h2⟩
  cases ht : jsTruthy a.imagePath with
  | false =>
      rw [h2 ht]
      exact toNote_sound env a
  | true =>
      rcases h1 ht with ⟨p, u, hp, hg, hb⟩
      subst hb
      intro u' hu'
      injection hu' with hu'
      subst hu'
      refine ⟨p, hp, ?_, hg⟩
      rw [hp] at ht
      simpa [jsTruthy] using ht

theorem deleteRecStep_sound (env : Env) (note : Note) (s : AppState)
    (blobEvs : List Event) (hs : stateUrlSound env s) :
    stateUrlSound env (deleteRecStep env note s blobEvs).1 := by
  unfold deleteRecStep
  split
  · exact hs
  · split
    · exact hs
    next l hl =>
        intro n hn
        exact hs n (removeById_mem s.notes note.id l hl (some n) hn)

theorem hydrateCalls_no_update (items : List StoreNote) (i p : String)
    (hm : RemoteCall.updateRec i p ∈ callEvents (hydrateCalls items)) :
    False := by
  unfold callEvents at hm
  rcases List.mem_filterMap.mp hm with ⟨e, he, hme⟩
  rcases hydrateCalls_shape items e he with ⟨q, rfl⟩
  simp at hme

theorem fetch_preserves_sound (env : Env) (s : AppState)
    (hs : stateUrlSound env s) : stateUrlSound env (fetchNotes env s).1 := by
  unfold fetchNotes
  split
  · exact hs
  · split
    · exact hs
    next l hl =>
        intro n hn
        have hnl : n ∈ l := by simpa using hn
        rcases forall₂_mem_right (hydrate_ok_forall env _ l hl) n hnl with
          ⟨a, _, hone⟩
        exact hydrateOne_sound env a n hone

theorem appendCleared_sound (env : Env) (s : AppState) (v : Option StoreNote)
    (hs : stateUrlSound env s) :
    stateUrlSound env (appendCleared s (Option.map StoreNote.toNote v)) := by
  intro n hn
  have hn' : some n ∈ s.notes ++ [Option.map StoreNote.toNote v] := hn
  rcases List.mem_append.mp hn' with hmem | hmem
  · exact hs n hmem
  · have he := (List.mem_singleton.mp hmem).symm
    cases v with
    | none => exact Option.noConfusion he
    | some m =>
        injection he with he
        rw [← he]
        exact toNote_sound env m

theorem create_preserves_sound (env : Env) (s : AppState)
    (hs : stateUrlSound env s) : stateUrlSound env (createNote env s).1 := by
  unfold createNote
  split
  · exact hs
  · split
    · exact hs
    · split
      · split
        · exact hs
        · split
          · exact hs
          · exact appendCleared_sound env s _ hs
      · exact appendCleared_sound env s _ hs

theorem delete_preserves_sound (env : Env) (confirmed : Bool) (note : Note)
    (s : AppState) (hs : stateUrlSound env s) :
    stateUrlSound env (deleteNote env confirmed note s).1 := by
  unfold deleteNote
  split
  · exact hs
  · split
    next p heq =>
      split
      · exact deleteRecStep_sound env note s [] hs
      · split
        · exact hs
        · exact deleteRecStep_sound env note s
            [Event.call (RemoteCall.removeBlob p)] hs
    next =>
      exact deleteRecStep_sound env note s [] hs

theorem fetch_success_url_complete (env : Env) (s : AppState)
    (ha : noAlert (fetchNotes env s).2 = true) :
    ∀ n : Note, some n ∈ (fetchNotes env s).1.notes →
      (jsTruthy n.imagePath = true → n.imageUrl.isSome = true) ∧
      (jsTruthy n.imagePath = false → n.imageUrl = none) := by
  unfold fetchNotes at ha ⊢
  split at ha
  · simp [noAlert, Event.isAlert] at ha
  · split at ha
    · simp [noAlert, Event.isAlert] at ha
    next d l hl =>
        intro n hn
        have hnl : n ∈ l := by simpa using hn
        rcases forall₂_mem_right (hydrate_ok_forall env _ l hl) n hnl with
          ⟨a, _, hone⟩
        rcases hydrateOne_spec env a n hone with ⟨h1, h2⟩
        cases ht : jsTruthy a.imagePath with
        | true =>
            rcases h1 ht with ⟨p, u, hp, hg, hb⟩
            subst hb
            constructor
            · intro _
              rfl
            · intro hfalse
              have hfalse' : jsTruthy a.imagePath = false := hfalse
              rw [ht] at hfalse'
              exact Bool.noConfusion hfalse'
        | false =>
            rw [h2 ht]
            constructor
            · intro htrue
              have htrue' : jsTruthy a.imagePath = true := htrue
              rw [ht] at htrue'
              exact Bool.noConfusion htrue'
            · intro _
              rfl

theorem create_update_payload (env : Env) (s : AppState) :
    ∀ i p, RemoteCall.updateRec i p ∈ callEvents (createNote env s).2 →
      ∃ n f, env.createResult s.formTitle s.formContent
          = Except.ok (some n) ∧
        s.file = some f ∧ i = n.id ∧
        env.uploadResult ("images/" ++ n.id ++ "-" ++ f.name) f.contentType
          = Except.ok p := by
  intro i p hm
  unfold createNote at hm
  by_cases hv : (s.formTitle.isEmpty || s.formContent.isEmpty) = true
  · rw [if_pos hv] at hm
    simp [callEvents] at hm
  · rw [if_neg hv] at hm
    cases hcr : env.createResult s.formTitle s.formContent with
    | error e =>
        simp only [hcr] at hm
        simp [callEvents] at hm
    | ok created =>
        simp only [hcr] at hm
        rcases hfe : s.file with _ | f
        · simp only [hfe] at hm
          simp [callEvents] at hm
        · cases created with
          | none =>
              simp only [hfe] at hm
              simp [callEvents] at hm
          | some n =>
              simp only [hfe] at hm
              cases hup : env.uploadResult ("images/" ++ n.id ++ "-" ++ f.name)
                  f.contentType with
              | error e =>
                  simp only [hup] at hm
                  simp [callEvents] at hm
              | ok r =>
                  simp only [hup] at hm
                  cases hupd : env.updateResult n.id r with
                  | error e =>
                      simp only [hupd] at hm
                      simp [callEvents] at hm
                      rcases hm with ⟨hi, hp⟩
                      subst hi
                      subst hp
                      exact ⟨n, f, rfl, rfl, rfl, hup⟩
                  | ok u =>
                      simp only [hupd] at hm
                      simp [callEvents] at hm
                      rcases hm with ⟨hi, hp⟩
                      subst hi
                      subst hp
                      exact ⟨n, f, rfl, rfl, rfl, hup⟩

theorem fetch_no_update_call (env : Env) (s : AppState) :
    ∀ i p, RemoteCall.updateRec i p ∉ callEvents (fetchNotes env s).2 := by
  unfold fetchNotes
  split
  · intro i p hm
    simp [callEvents] at hm
  · split
    · intro i p hm
      rw [callEvents_append, callEvents_append] at hm
      rcases List.mem_append.mp hm with hm | hm
      · rcases List.mem_append.mp hm with hm | hm
        · simp [callEvents] at hm
        · exact hydrateCalls_no_update _ i p hm
      · simp [callEvents] at hm
    · intro i p hm
      rw [callEvents_append, callEvents_append] at hm
      rcases List.mem_append.mp hm with hm | hm
      · rcases List.mem_append.mp hm with hm | hm
        · simp [callEvents] at hm
        · exact hydrateCalls_no_update _ i p hm
      · simp [callEvents] at hm

theorem delete_no_update_call (env : Env) (confirmed : Bool) (note : Note)
    (s : AppState) :
    ∀ i p, RemoteCall.updateRec i p ∉
      callEvents (deleteNote env confirmed note s).2 := by
  unfold deleteNote
  split
  · intro i p hm
    simp [callEvents] at hm
  · split
    next q heq =>
      split
      · intro i p hm
        rw [deleteRecStep_calls] at hm
        simp [callEvents] at hm
      · split
        · intro i p hm
          simp [callEvents] at hm
        · intro i p hm
          rw [deleteRecStep_calls] at hm
          simp [callEvents] at hm
    next =>
      intro i p hm
      rw [deleteRecStep_calls] at hm
      simp [callEvents] at hm

/-- Claim C8: the three workflows preserve the invariant that a displayed
imageUrl exists only as the successful resolution of the note's own
imagePath; after a successful fetch imageUrl is present exactly on the
notes with a truthy imagePath; and the update call sent to the store
carries only the record id and the uploaded blob path, never an imageUrl,
while fetch and delete issue no update call at all. -/
theorem C8_image_url_invariant (env : Env) (s : AppState) (confirmed : Bool)
    (note : Note) (hs : stateUrlSound env s) :
    stateUrlSound env (fetchNotes env s).1 ∧
    stateUrlSound env (createNote env s).1 ∧
    stateUrlSound env (deleteNote env confirmed note s).1 ∧
    (noAlert (fetchNotes env s).2 = true →
      ∀ n : Note, some n ∈ (fetchNotes env s).1.notes →
        (jsTruthy n.imagePath = true → n.imageUrl.isSome = true) ∧
        (jsTruthy n.imagePath = false → n.imageUrl = none)) ∧
    (∀ i p, RemoteCall.updateRec i p ∈ callEvents (createNote env s).2 →
      ∃ n f, env.createResult s.formTitle s.formContent
          = Except.ok (some n) ∧
        s.file = some f ∧ i = n.id ∧
        env.uploadResult ("images/" ++ n.id ++ "-" ++ f.name) f.contentType
          = Except.ok p) ∧
    (∀ i p, RemoteCall.updateRec i p ∉ callEvents (fetchNotes env s).2) ∧
    (∀ i p, RemoteCall.updateRec i p ∉
      callEvents (deleteNote env confirmed note s).2) :=
  ⟨fetch_preserves_sound env s hs,
   create_preserves_sound env s hs,
   delete_preserves_sound env confirmed note s hs,
   fun ha => fetch_success_url_complete env s ha,
   create_update_payload env s,
   fetch_no_update_call env s,
   delete_no_update_call env confirmed note s⟩

/-- Witness for C8 at the concrete environment and an empty prior list. -/
theorem C8_witness :
    stateUrlSound envOk stateAB ∧
    (stateUrlSound envOk (fetchNotes envOk stateAB).1 ∧
     stateUrlSound envOk (createNote envOk stateAB).1 ∧
     stateUrlSound envOk (deleteNote envOk true nImg stateAB).1 ∧
     (noAlert (fetchNotes envOk stateAB).2 = true →
       ∀ n : Note, some n ∈ (fetchNotes envOk stateAB).1.notes →
         (jsTruthy n.imagePath = true → n.imageUrl.isSome = true) ∧
         (jsTruthy n.imagePath = false → n.imageUrl = none)) ∧
     (∀ i p, RemoteCall.updateRec i p ∈ callEvents (createNote envOk stateAB).2 →
       ∃ n f, envOk.createResult stateAB.formTitle stateAB.formContent
           = Except.ok (some n) ∧
         stateAB.file = some f ∧ i = n.id ∧
         envOk.uploadResult ("images/" ++ n.id ++ "-" ++ f.name) f.contentType
           = Except.ok p) ∧
     (∀ i p, RemoteCall.updateRec i p ∉ callEvents (fetchNotes envOk stateAB).2) ∧
     (∀ i p, RemoteCall.updateRec i p ∉
       callEvents (deleteNote envOk true nImg stateAB).2)) :=
  have hs : stateUrlSound envOk stateAB :=
    fun n hn => absurd hn (List.not_mem_nil (some n))
  ⟨hs, C8_image_url_invariant envOk stateAB true nImg hs⟩

end NotesApp
